import Mathlib

/-!
Verification of the Semantic-Sonifier orchestration pipeline.

Shallow embedding of the repository's orchestration logic:
  * `src/utils/config.py`   — configuration constants
  * `src/models/sonifier.py` — prompt composer, orchestrator, merge
  * `src/models/music_generator.py` — duration handling, OOM retry, normalization
  * `src/models/blip2_wrapper.py` — caption fallback policy
  * `src/models/clip_mood_analyzer.py` — mood fallback policy
  * `src/api/app.py`, `src/demo.py` — persistence-site peak normalization

External model calls (BLIP-2, CLIP, MusicGen inference) are modelled as
oracle parameters; everything the repository's own code does with their
results is embedded faithfully.
-/

namespace Sonifier

/-! ### Configuration constants (src/utils/config.py, AudioConfig) -/

def sampleRate : ℕ := 32000
def defaultDuration : ℕ := 10
def maxDuration : ℕ := 30

/-! ### String containment, modelling Python's `needle in haystack` -/

/-- Does the haystack start with the needle (character lists)? -/
def startsWithChars : List Char → List Char → Bool
  | [], _ => true
  | _ :: _, [] => false
  | n :: nt, h :: ht => n == h && startsWithChars nt ht

/-- Is `needle` a contiguous substring of `hay` (character lists)? -/
def subOf (needle : List Char) : List Char → Bool
  | [] => needle.isEmpty
  | c :: t => startsWithChars needle (c :: t) || subOf needle t

/-- Python's `needle in hay` for strings: contiguous substring containment. -/
def strContains (hay needle : String) : Bool := subOf needle.data hay.data

/-- Python's `str.lower()` (`String.toLower`), character-wise lowering of
the string's characters. -/
def strLower (s : String) : String := ⟨s.data.map Char.toLower⟩

/-! ### Genre hint (src/models/sonifier.py, MusicOrchestrator._get_genre_hint)

The Python function is a sequence of `if` blocks; a `return` inside a block
exits, otherwise control falls through to the next block.  The fall-through
continuations are factored into `peopleHint` and `urbanHint`. -/

def natureWords : List String := ["forest", "mountain", "ocean", "river", "nature"]
def urbanWords : List String := ["city", "building", "street", "urban"]
def peopleWords : List String := ["person", "people", "portrait", "face"]

/-- People/portraits block of `_get_genre_hint` (and the final `return ""`).
`cl`/`ml` are the lower-cased caption and mood. -/
def peopleHint (cl ml : String) : String :=
  if peopleWords.any (fun w => strContains cl w) then
    if ["happy", "joyful"].contains ml then "upbeat acoustic guitar and light percussion"
    else if ["mysterious", "dreamy"].contains ml then "ethereal vocals and reverbed textures"
    else ""
  else ""

/-- Urban block of `_get_genre_hint`, falling through to the people block. -/
def urbanHint (cl ml : String) : String :=
  if urbanWords.any (fun w => strContains cl w) then
    if ["energetic", "chaotic"].contains ml then "electronic beats and synth bass"
    else if ["melancholic", "somber"].contains ml then "slow piano and distant city sounds"
    else peopleHint cl ml
  else peopleHint cl ml

/-- `MusicOrchestrator._get_genre_hint`: nature block first, falling through
to the urban and people blocks, `""` when nothing matches. -/
def getGenreHint (caption mood : String) : String :=
  let cl := strLower caption
  let ml := strLower mood
  if natureWords.any (fun w => strContains cl w) then
    if ["peaceful", "serene", "calm"].contains ml then "ambient pads and gentle flutes"
    else if ["dramatic", "intense"].contains ml then "epic orchestral strings and horns"
    else urbanHint cl ml
  else urbanHint cl ml

/-! ### Prompt composer (src/models/sonifier.py, _create_intelligent_prompt)

`mood_scores` is a Python dict (insertion-ordered, unique keys), modelled as
an association list.  Confidences are modelled as rationals. -/

/-- Python `mood_scores[key]` for a key known to be present (defaults to `0`
only for totality; the callers below always look up a present key). -/
def dictLookup (d : List (String × ℚ)) (k : String) : ℚ := (d.lookup k).getD 0

/-- The list `prompt_parts` right before `", ".join(prompt_parts)`. -/
def promptParts (caption primaryMood : String) (moodScores : List (String × ℚ)) :
    List String :=
  let base := "A " ++ primaryMood ++ " piece of music for " ++ caption
  let topMoods := (moodScores.map Prod.fst).take 2
  let moodPart : List String :=
    match topMoods with
    | _ :: m2 :: _ => if 1/5 < dictLookup moodScores m2 then ["with elements of " ++ m2] else []
    | _ => []
  let hint := getGenreHint caption primaryMood
  let hintPart : List String := if hint = "" then [] else [hint]
  base :: (moodPart ++ hintPart)

/-- Python's `", ".join`. -/
def joinParts : List String → String
  | [] => ""
  | [x] => x
  | x :: y :: t => x ++ ", " ++ joinParts (y :: t)

/-- `MusicOrchestrator._create_intelligent_prompt`. -/
def createIntelligentPrompt (caption primaryMood : String)
    (moodScores : List (String × ℚ)) : String :=
  joinParts (promptParts caption primaryMood moodScores)

/-! ### Music generator (src/models/music_generator.py)

The MusicGen inference call (`self.model.generate`) is an oracle
`synth : String → ℕ → SynthRes`, keyed by the prompt and the duration the
code derived (the code converts the duration to `max_new_tokens = duration * 50`;
the two are in bijection, so the oracle is keyed by the duration).  It can
succeed with a waveform, raise a `RuntimeError` whose message contains
"out of memory", or raise any other exception. -/

inductive SynthRes
  | ok (audio : List ℚ)
  | oomFail
  | otherFail
deriving DecidableEq, Repr

/-- Errors the pipeline can propagate to its caller. -/
inductive PipeErr
  | notFound
  | capRuntime
  | synthOom
  | synthOther
deriving DecidableEq, Repr

/-- The duration `MusicGenerator.process` actually uses:
`duration = duration or self.default_duration` (`0`/`None` are falsy in
Python, `None` is mapped to `0` by the caller `musicProcess` below) followed
by the max-duration clamp.  Note there is no minimum clamp. -/
def clampDur (d : ℕ) : ℕ :=
  let d0 := if d = 0 then defaultDuration else d
  if d0 > maxDuration then maxDuration else d0

/-- `MusicGenerator.process` on an integer duration argument.  On an
out-of-memory `RuntimeError` it retries itself with the halved (clamped)
duration whenever that duration exceeds 5, and re-raises otherwise; any
other exception is re-raised. -/
def musicProcessD (synth : String → ℕ → SynthRes) (prompt : String) (d : ℕ) :
    Except PipeErr (List ℚ × ℕ) :=
  match synth prompt (clampDur d) with
  | .ok audio => .ok (audio, sampleRate)
  | .oomFail =>
      if h : 5 < clampDur d then musicProcessD synth prompt (clampDur d / 2)
      else .error .synthOom
  | .otherFail => .error .synthOther
  termination_by if d = 0 then defaultDuration + 1 else d
  decreasing_by
    simp only [clampDur, defaultDuration, maxDuration] at *
    split at h <;> split at h <;> split <;> split <;> omega

/-- `MusicGenerator.process` with an optional duration: Python's
`duration or self.default_duration` treats both `None` and `0` as falsy,
so `none` is funnelled through the `0` case of `clampDur`. -/
def musicProcess (synth : String → ℕ → SynthRes) (prompt : String)
    (durOpt : Option ℕ) : Except PipeErr (List ℚ × ℕ) :=
  musicProcessD synth prompt (durOpt.getD 0)

/-- `MusicGenerator.generate_with_emotion`: prepends the emotional clause to
the prompt and delegates to `process`. -/
def generateWithEmotion (synth : String → ℕ → SynthRes) (prompt mood : String)
    (durOpt : Option ℕ) : Except PipeErr (List ℚ × ℕ) :=
  musicProcess synth ("A " ++ mood ++ " piece of music, " ++ prompt) durOpt

/-! ### Audio normalization (music_generator.py, src/api/app.py, src/demo.py) -/

/-- `np.max(np.abs(a))` (with `0` for the empty list, on which numpy would
raise; the theorems below never rely on the empty case). -/
def maxAbs (a : List ℚ) : ℚ := a.foldr (fun x acc => max |x| acc) 0

/-- `MusicGenerator.normalize_audio`: divides by the peak only when it is
positive, otherwise returns the waveform unchanged. -/
def normalizeAudio (a : List ℚ) : List ℚ :=
  if 0 < maxAbs a then a.map (fun x => x / maxAbs a) else a

/-- The persistence-site normalization in `src/api/app.py` (line 71) and
`src/demo.py` (line 52): `audio / np.max(np.abs(audio))` with no zero
guard.  A zero peak makes every sample `0/0`, which is IEEE NaN — no
well-defined waveform is produced; that outcome is modelled as `none`. -/
def persistedAudio (a : List ℚ) : Option (List ℚ) :=
  if maxAbs a = 0 then none else some (a.map (fun x => x / maxAbs a))

/-! ### Pipeline records (src/models/sonifier.py)

The Python results are dicts with string keys and heterogeneous values,
modelled as association lists over a sum type of values. -/

inductive Val
  | str (s : String)
  | q (x : ℚ)
  | audio (a : List ℚ)
  | nat (n : ℕ)
  | scores (m : List (String × ℚ))
deriving DecidableEq, Repr

/-- The dict returned by `ImageAnalyzer.process`. -/
structure AnalysisResult where
  caption : String
  primaryMood : String
  moodScores : List (String × ℚ)
  imagePath : String
deriving DecidableEq, Repr

/-- `ImageAnalyzer.process`'s returned dict, as an association list. -/
def analysisDict (r : AnalysisResult) : List (String × Val) :=
  [("caption", .str r.caption), ("primary_mood", .str r.primaryMood),
   ("mood_scores", .scores r.moodScores), ("image_path", .str r.imagePath)]

/-! ### Caption stage (src/models/blip2_wrapper.py, BLIP2Model.process)

Oracle outcomes: the inner image-loading `try` (any failure there returns
the fallback caption), then the BLIP-2 generation step, which can succeed,
raise a `RuntimeError` (re-raised by the outer handler), or raise any other
exception (replaced by the fallback caption). -/

inductive CapRes
  | ok (caption : String)
  | runtimeErr
  | otherErr
deriving DecidableEq, Repr

/-- `BLIP2Model.process`: image-load failures and generic exceptions yield
the fixed fallback caption `"an image"`; a `RuntimeError` propagates. -/
def blip2Process (loadOk : Bool) (gen : CapRes) : Except PipeErr String :=
  if loadOk then
    match gen with
    | .ok c => .ok c
    | .runtimeErr => .error .capRuntime
    | .otherErr => .ok "an image"
  else .ok "an image"

/-! ### Mood stage (src/models/clip_mood_analyzer.py, CLIPMoodAnalyzer.process) -/

inductive MoodRes
  | ok (primary : String) (scores : List (String × ℚ))
  | fail
deriving DecidableEq, Repr

/-- `CLIPMoodAnalyzer.process`: any failure yields `("neutral", {"neutral": 1.0})`. -/
def clipProcess (m : MoodRes) : String × List (String × ℚ) :=
  match m with
  | .ok p s => (p, s)
  | .fail => ("neutral", [("neutral", 1)])

/-- `ImageAnalyzer.process`: caption, then mood, then the result dict.
(`safe_process` wraps `process` in a handler that logs and re-raises, so it
is semantically `process` itself.) -/
def imageAnalyzerProcess (loadOk : Bool) (gen : CapRes) (mood : MoodRes)
    (imagePath : String) : Except PipeErr AnalysisResult :=
  match blip2Process loadOk gen with
  | .ok caption =>
      let pm := clipProcess mood
      .ok ⟨caption, pm.1, pm.2, imagePath⟩
  | .error e => .error e

/-- `MusicOrchestrator.process`: composes the prompt, generates with
emotional context, and returns the generation dict.  `duration_seconds` is
computed from the returned waveform. -/
def musicOrchestratorProcess (synth : String → ℕ → SynthRes)
    (analysis : AnalysisResult) (durOpt : Option ℕ) :
    Except PipeErr (List (String × Val)) :=
  let prompt := createIntelligentPrompt analysis.caption analysis.primaryMood
      analysis.moodScores
  match generateWithEmotion synth prompt analysis.primaryMood durOpt with
  | .ok (audio, rate) =>
      .ok [("audio_array", .audio audio), ("sample_rate", .nat rate),
           ("prompt_used", .str prompt),
           ("duration_seconds", .q ((audio.length : ℚ) / (rate : ℚ)))]
  | .error e => .error e

/-- Python's `duration or config.audio.default_duration` in
`SemanticSonifier.process_image` (`None` and `0` are falsy). -/
def pyOrDefault (d : Option ℕ) (dflt : ℕ) : ℕ :=
  match d with
  | none => dflt
  | some n => if n = 0 then dflt else n

/-- Python dict merge `{**a, **b}`: keys of `a` in order (values taken from
`b` when the key is also in `b`), then keys of `b` not in `a`. -/
def pyMerge (a b : List (String × Val)) : List (String × Val) :=
  a.map (fun p => (p.1, (b.lookup p.1).getD p.2)) ++
    b.filter (fun p => (a.lookup p.1).isNone)

/-- `SemanticSonifier.process_image`: existence check, analysis, music
generation with `duration or default`, then the dict merge. -/
def processImage (pathExists loadOk : Bool) (gen : CapRes) (mood : MoodRes)
    (synth : String → ℕ → SynthRes) (imagePath : String) (durOpt : Option ℕ) :
    Except PipeErr (List (String × Val)) :=
  if pathExists then
    match imageAnalyzerProcess loadOk gen mood imagePath with
    | .ok analysis =>
        match musicOrchestratorProcess synth analysis
            (some (pyOrDefault durOpt defaultDuration)) with
        | .ok music => .ok (pyMerge (analysisDict analysis) music)
        | .error e => .error e
    | .error e => .error e
  else .error .notFound

/-- The duration at which the audio oracle ends up being invoked (absent any
retry), for a requested duration threaded through `process_image` and
`MusicGenerator.process`. -/
def effDuration (durOpt : Option ℕ) : ℕ :=
  clampDur (pyOrDefault durOpt defaultDuration)

/-! ### Spec-side rule table for the genre hints

Modelled from the spec's words (§4.1 step 3): an explicit ordered decision
list of (caption-keyword-set, mood-label-set) → hint rules, categories in
the fixed order nature → urban → people, first match wins, empty string
when no rule matches.  Compared against `getGenreHint` below. -/

structure GenreRule where
  keywords : List String
  moods : List String
  hint : String
deriving DecidableEq, Repr

def genreRules : List GenreRule :=
  [⟨natureWords, ["peaceful", "serene", "calm"], "ambient pads and gentle flutes"⟩,
   ⟨natureWords, ["dramatic", "intense"], "epic orchestral strings and horns"⟩,
   ⟨urbanWords, ["energetic", "chaotic"], "electronic beats and synth bass"⟩,
   ⟨urbanWords, ["melancholic", "somber"], "slow piano and distant city sounds"⟩,
   ⟨peopleWords, ["happy", "joyful"], "upbeat acoustic guitar and light percussion"⟩,
   ⟨peopleWords, ["mysterious", "dreamy"], "ethereal vocals and reverbed textures"⟩]

/-- A rule matches when some keyword occurs in the lower-cased caption and
the lower-cased mood is in the rule's mood family. -/
def ruleMatches (r : GenreRule) (caption mood : String) : Bool :=
  r.keywords.any (fun w => strContains (strLower caption) w) &&
    r.moods.contains (strLower mood)

/-- Modelled from the spec: scan the ordered rule list, first matching rule
wins, empty string if none match. -/
def firstRuleHint (rules : List GenreRule) (caption mood : String) : String :=
  match rules.find? (fun r => ruleMatches r caption mood) with
  | some r => r.hint
  | none => ""

/-! ### Helper lemmas -/

lemma joinParts_cons (x : String) (l : List String) :
    joinParts (x :: l) = x ++ (if l.isEmpty then "" else ", " ++ joinParts l) := by
  cases l with
  | nil => simp [joinParts]
  | cons y t => simp [joinParts, String.append_assoc]

lemma head_ne_imp_ne (s t : String) (h : s.data.head? ≠ t.data.head?) : s ≠ t := by
  intro e; rw [e] at h; exact h rfl

lemma append_data_head (s t : String) (c : Char) (rest : List Char)
    (h : s.data = c :: rest) : (s ++ t).data.head? = some c := by
  rw [String.data_append, h]; rfl

lemma clause_data_head (m2 : String) :
    ("with elements of " ++ m2).data.head? = some 'w' :=
  append_data_head _ _ 'w' "ith elements of ".data rfl

lemma base_data_head (m c : String) :
    ("A " ++ m ++ " piece of music for " ++ c).data.head? = some 'A' := by
  rw [String.data_append, String.data_append, String.data_append]
  rfl

lemma musicProcessD_ok (synth : String → ℕ → SynthRes) (p : String) (d : ℕ)
    (a : List ℚ) (h : synth p (clampDur d) = SynthRes.ok a) :
    musicProcessD synth p d = .ok (a, sampleRate) := by
  rw [musicProcessD, h]

lemma musicProcessD_oom_retry (synth : String → ℕ → SynthRes) (p : String)
    (d : ℕ) (h : synth p (clampDur d) = SynthRes.oomFail)
    (h5 : 5 < clampDur d) :
    musicProcessD synth p d = musicProcessD synth p (clampDur d / 2) := by
  rw [musicProcessD, h]; rw [dif_pos h5]

lemma musicProcessD_oom_fatal (synth : String → ℕ → SynthRes) (p : String)
    (d : ℕ) (h : synth p (clampDur d) = SynthRes.oomFail)
    (h5 : ¬ 5 < clampDur d) :
    musicProcessD synth p d = .error .synthOom := by
  rw [musicProcessD, h]; rw [dif_neg h5]

lemma musicProcessD_other (synth : String → ℕ → SynthRes) (p : String) (d : ℕ)
    (h : synth p (clampDur d) = SynthRes.otherFail) :
    musicProcessD synth p d = .error .synthOther := by
  rw [musicProcessD, h]

lemma maxAbs_nil : maxAbs [] = 0 := rfl

lemma maxAbs_cons (y : ℚ) (t : List ℚ) : maxAbs (y :: t) = max |y| (maxAbs t) := rfl

lemma maxAbs_nonneg (a : List ℚ) : 0 ≤ maxAbs a := by
  induction a with
  | nil => simp [maxAbs]
  | cons y t ih => rw [maxAbs_cons]; exact le_max_of_le_right ih

lemma le_maxAbs (a : List ℚ) (x : ℚ) (hx : x ∈ a) : |x| ≤ maxAbs a := by
  induction a with
  | nil => cases hx
  | cons y t ih =>
      rw [maxAbs_cons]
      rcases List.mem_cons.mp hx with h | h
      · exact h ▸ le_max_left _ _
      · exact le_trans (ih h) (le_max_right _ _)

lemma base_data_cons (m c : String) :
    ∃ l, ("A " ++ m ++ " piece of music for " ++ c).data = 'A' :: l := by
  rw [String.data_append, String.data_append, String.data_append]
  exact ⟨_, rfl⟩

lemma ne_empty_of_head (s : String) (c : Char) (h : s.data.head? = some c) :
    s ≠ "" := by
  intro e; rw [e] at h; simp at h

/-! ### C4 — the composed prompt starts with the base clause -/

/-- C4: for every caption, primary mood and mood-score mapping,
`_create_intelligent_prompt` returns a non-empty string that starts with the
base clause `"A {primaryMood} piece of music for {caption}"` (so it contains
the primary mood and the caption verbatim), and whatever follows the base
clause is attached with the separator `", "`. -/
theorem prompt_starts_with_base_clause (c m : String) (ms : List (String × ℚ)) :
    createIntelligentPrompt c m ms ≠ "" ∧
    ∃ rest, createIntelligentPrompt c m ms =
        ("A " ++ m ++ " piece of music for " ++ c) ++ rest ∧
      (rest = "" ∨ ∃ t, rest = ", " ++ t) := by
  obtain ⟨L, hL⟩ : ∃ L, promptParts c m ms =
      ("A " ++ m ++ " piece of music for " ++ c) :: L := ⟨_, rfl⟩
  obtain ⟨bl, hbl⟩ := base_data_cons m c
  have hform : ∃ rest, createIntelligentPrompt c m ms =
      ("A " ++ m ++ " piece of music for " ++ c) ++ rest ∧
      (rest = "" ∨ ∃ t, rest = ", " ++ t) := by
    rw [createIntelligentPrompt, hL, joinParts_cons]
    cases L with
    | nil => exact ⟨"", rfl, Or.inl rfl⟩
    | cons y t => exact ⟨_, rfl, Or.inr ⟨_, rfl⟩⟩
  refine ⟨?_, hform⟩
  obtain ⟨rest, hrest, -⟩ := hform
  rw [hrest]
  exact ne_empty_of_head _ 'A' (append_data_head _ _ 'A' bl hbl)

/-! ### C7 — peak normalization before persistence -/

/-- C7 amended: when the waveform's peak absolute value is nonzero, the
persistence-site normalization (`src/api/app.py:71`, `src/demo.py:52`) is
defined and every written sample lies in [-1, 1]; the guarded
`MusicGenerator.normalize_audio` likewise keeps every sample in [-1, 1].
(When the peak is zero the persistence sites divide by zero — see the
counterexample `zero_peak_normalization_undefined`.) -/
theorem peak_normalized_in_range (a : List ℚ) (h : maxAbs a ≠ 0) :
    (∃ b, persistedAudio a = some b ∧ ∀ x ∈ b, -1 ≤ x ∧ x ≤ 1) ∧
    ∀ x ∈ normalizeAudio a, -1 ≤ x ∧ x ≤ 1 := by
  have hpos : 0 < maxAbs a := lt_of_le_of_ne (maxAbs_nonneg a) (Ne.symm h)
  have key : ∀ x ∈ a.map (fun x => x / maxAbs a), -1 ≤ x ∧ x ≤ 1 := by
    intro x hx
    rcases List.mem_map.mp hx with ⟨y, hy, rfl⟩
    have hb : |y| ≤ maxAbs a := le_maxAbs a y hy
    have habs : |y / maxAbs a| ≤ 1 := by
      rw [abs_div, abs_of_pos hpos]
      exact (div_le_one hpos).mpr hb
    exact abs_le.mp habs
  constructor
  · exact ⟨_, by rw [persistedAudio, if_neg h], key⟩
  · rw [normalizeAudio, if_pos hpos]; exact key

/-- Witness for `peak_normalized_in_range` at the waveform `[1/2, -1/4]`. -/
theorem peak_normalized_in_range_witness :
    (∃ b, persistedAudio [(1 : ℚ)/2, -(1/4)] = some b ∧
        ∀ x ∈ b, -1 ≤ x ∧ x ≤ 1) ∧
    ∀ x ∈ normalizeAudio [(1 : ℚ)/2, -(1/4)], -1 ≤ x ∧ x ≤ 1 :=
  peak_normalized_in_range [(1 : ℚ)/2, -(1/4)] (by
    have h : maxAbs [(1 : ℚ)/2, -(1/4)] = 1/2 := by
      rw [maxAbs_cons, maxAbs_cons, maxAbs_nil]
      rw [abs_of_pos (by norm_num : (0:ℚ) < 1/2),
        abs_of_neg (by norm_num : (-(1/4 : ℚ)) < 0)]
      norm_num
    rw [h]; norm_num)

/-- C7 counterexample: on an all-zero waveform the persistence sites divide
by a zero peak, so no well-defined normalized waveform is produced (the
samples are IEEE `0/0`); the claim's "well-defined even when the peak is
zero" fails for the code that actually writes the audio. -/
theorem zero_peak_normalization_undefined :
    persistedAudio [0, 0, 0] = none ∧ normalizeAudio [0, 0, 0] = [0, 0, 0] := by
  constructor <;> norm_num [persistedAudio, normalizeAudio, maxAbs]

/-! ### C1 — out-of-memory retry policy -/

/-- C1 amended: on an effective (clamped) duration `d` in `[1, 30]`,
`MusicGenerator.process` returns the synthesized audio when the call
succeeds; on an out-of-memory failure it retries itself at duration `d / 2`
whenever `d > 5` — and this applies recursively, so retries repeat while the
failing duration exceeds 5 — while an out-of-memory failure at `d ≤ 5`
propagates as fatal; any other failure propagates immediately. -/
theorem oom_retry_halves (synth : String → ℕ → SynthRes) (prompt : String)
    (d : ℕ) (h1 : 1 ≤ d) (h2 : d ≤ maxDuration) :
    (∀ a, synth prompt d = SynthRes.ok a →
        musicProcessD synth prompt d = .ok (a, sampleRate)) ∧
    (synth prompt d = SynthRes.oomFail →
      (5 < d → musicProcessD synth prompt d = musicProcessD synth prompt (d / 2)) ∧
      (d ≤ 5 → musicProcessD synth prompt d = .error PipeErr.synthOom)) ∧
    (synth prompt d = SynthRes.otherFail →
        musicProcessD synth prompt d = .error PipeErr.synthOther) := by
  simp only [maxDuration] at h2
  have hc : clampDur d = d := by
    simp only [clampDur, defaultDuration, maxDuration]
    split_ifs <;> omega
  refine ⟨?_, ?_, ?_⟩
  · intro a ha
    exact musicProcessD_ok synth prompt d a (by rw [hc]; exact ha)
  · intro hoom
    constructor
    · intro h5
      have h := musicProcessD_oom_retry synth prompt d (by rw [hc]; exact hoom)
        (by rw [hc]; exact h5)
      rwa [hc] at h
    · intro h5
      exact musicProcessD_oom_fatal synth prompt d (by rw [hc]; exact hoom)
        (by rw [hc]; omega)
  · intro hother
    exact musicProcessD_other synth prompt d (by rw [hc]; exact hother)

/-- A synthesis oracle that is out of memory at every duration above 5 and
succeeds below: it models a synthesizer that fails at 20, fails again at the
halved duration 10, and succeeds at 5. -/
def synthOomTwice : String → ℕ → SynthRes := fun _ d =>
  if d ≤ 5 then SynthRes.ok (List.replicate 3 0) else SynthRes.oomFail

/-- Witness for `oom_retry_halves`: at duration 20 with an out-of-memory
failure the call reduces to the call at duration 10. -/
theorem oom_retry_halves_witness :
    musicProcessD synthOomTwice "p" 20 = musicProcessD synthOomTwice "p" 10 := by
  have h := oom_retry_halves synthOomTwice "p" 20 (by norm_num)
    (by norm_num [maxDuration])
  exact (h.2.1 (by rfl)).1 (by norm_num)

/-- C1 counterexample: with a synthesizer that signals out-of-memory at
durations 20 and 10 but succeeds at 5, `MusicGenerator.process` retries a
second time (20 → 10 → 5) and returns the audio produced at duration 5,
whereas the claim requires the failure of the single retry (at duration 10)
to be propagated as fatal with no second retry. -/
theorem oom_retry_not_single_counterexample :
    musicProcess synthOomTwice "p" (some 20) =
      .ok (List.replicate 3 0, sampleRate) ∧
    musicProcess synthOomTwice "p" (some 20) ≠ .error PipeErr.synthOom := by
  have e1 : musicProcessD synthOomTwice "p" 20 = musicProcessD synthOomTwice "p" 10 :=
    musicProcessD_oom_retry _ _ _ (by decide) (by decide)
  have e2 : musicProcessD synthOomTwice "p" 10 = musicProcessD synthOomTwice "p" 5 :=
    musicProcessD_oom_retry _ _ _ (by decide) (by decide)
  have e3 : musicProcessD synthOomTwice "p" 5 = .ok (List.replicate 3 0, sampleRate) :=
    musicProcessD_ok _ _ _ _ (by decide)
  have etot : musicProcess synthOomTwice "p" (some 20) =
      .ok (List.replicate 3 0, sampleRate) := by
    show musicProcessD synthOomTwice "p" ((some 20).getD 0) = _
    exact e1.trans (e2.trans e3)
  exact ⟨etot, by rw [etot]; simp⟩

/-! ### C6 — genre-hint rule precedence -/

lemma firstRuleHint_nil (c m : String) : firstRuleHint [] c m = "" := rfl

lemma firstRuleHint_cons (r : GenreRule) (rs : List GenreRule) (c m : String) :
    firstRuleHint (r :: rs) c m =
      if ruleMatches r c m then r.hint else firstRuleHint rs c m := by
  simp only [firstRuleHint, List.find?]
  cases h : ruleMatches r c m <;> simp [h]

lemma firstRuleHint_eq_empty (rules : List GenreRule) (c m : String)
    (h : ∀ r ∈ rules, ruleMatches r c m = false) :
    firstRuleHint rules c m = "" := by
  unfold firstRuleHint
  have : rules.find? (fun r => ruleMatches r c m) = none :=
    List.find?_eq_none.mpr (by intro r hr; simp [h r hr])
  rw [this]

lemma peopleHint_eq (c m : String) :
    peopleHint (strLower c) (strLower m) =
      firstRuleHint
        [⟨peopleWords, ["happy", "joyful"], "upbeat acoustic guitar and light percussion"⟩,
         ⟨peopleWords, ["mysterious", "dreamy"], "ethereal vocals and reverbed textures"⟩]
        c m := by
  rw [firstRuleHint_cons, firstRuleHint_cons, firstRuleHint_nil]
  simp only [ruleMatches]
  unfold peopleHint
  cases hk : peopleWords.any (fun w => strContains (strLower c) w) <;>
    cases h1 : (["happy", "joyful"] : List String).contains (strLower m) <;>
    cases h2 : (["mysterious", "dreamy"] : List String).contains (strLower m) <;>
    simp [hk, h1, h2]

lemma urbanHint_eq (c m : String) :
    urbanHint (strLower c) (strLower m) =
      firstRuleHint
        [⟨urbanWords, ["energetic", "chaotic"], "electronic beats and synth bass"⟩,
         ⟨urbanWords, ["melancholic", "somber"], "slow piano and distant city sounds"⟩,
         ⟨peopleWords, ["happy", "joyful"], "upbeat acoustic guitar and light percussion"⟩,
         ⟨peopleWords, ["mysterious", "dreamy"], "ethereal vocals and reverbed textures"⟩]
        c m := by
  rw [firstRuleHint_cons, firstRuleHint_cons]
  simp only [ruleMatches]
  unfold urbanHint
  cases hk : urbanWords.any (fun w => strContains (strLower c) w) <;>
    cases h1 : (["energetic", "chaotic"] : List String).contains (strLower m) <;>
    cases h2 : (["melancholic", "somber"] : List String).contains (strLower m) <;>
    simp [hk, h1, h2, peopleHint_eq c m]

lemma getGenreHint_eq_firstRuleHint (c m : String) :
    getGenreHint c m = firstRuleHint genreRules c m := by
  unfold getGenreHint genreRules
  rw [firstRuleHint_cons, firstRuleHint_cons]
  simp only [ruleMatches]
  cases hk : natureWords.any (fun w => strContains (strLower c) w) <;>
    cases h1 : (["peaceful", "serene", "calm"] : List String).contains (strLower m) <;>
    cases h2 : (["dramatic", "intense"] : List String).contains (strLower m) <;>
    simp [hk, h1, h2, urbanHint_eq c m]

lemma ne_base_of_head (s : String) (ch : Char) (l : List Char)
    (hs : s.data = ch :: l) (hne : ch ≠ 'A') (m c : String) :
    s ≠ ("A " ++ m ++ " piece of music for " ++ c) := by
  apply head_ne_imp_ne
  rw [base_data_head, hs]
  simp [hne]

lemma ne_clause_of_head (s : String) (ch : Char) (l : List Char)
    (hs : s.data = ch :: l) (hne : ch ≠ 'w') (m2 : String) :
    s ≠ ("with elements of " ++ m2) := by
  apply head_ne_imp_ne
  rw [clause_data_head, hs]
  simp [hne]

/-- The shape of `prompt_parts`: the base clause, then an optional
second-mood clause, then an optional genre hint. -/
lemma promptParts_eq (c m : String) (ms : List (String × ℚ)) :
    ∃ moodPart hintPart, promptParts c m ms =
        ("A " ++ m ++ " piece of music for " ++ c) :: (moodPart ++ hintPart) ∧
      (moodPart = [] ∨ ∃ m2, moodPart = ["with elements of " ++ m2]) ∧
      (hintPart = [] ∨ hintPart = [getGenreHint c m]) := by
  simp only [promptParts]
  cases hm : (ms.map Prod.fst).take 2 with
  | nil =>
      split_ifs with h
      · exact ⟨[], [], by simp, Or.inl rfl, Or.inl rfl⟩
      · exact ⟨[], [getGenreHint c m], by simp, Or.inl rfl, Or.inr rfl⟩
  | cons a l =>
      cases l with
      | nil =>
          split_ifs with h
          · exact ⟨[], [], by simp, Or.inl rfl, Or.inl rfl⟩
          · exact ⟨[], [getGenreHint c m], by simp, Or.inl rfl, Or.inr rfl⟩
      | cons b t =>
          by_cases h1 : (5 : ℚ)⁻¹ < dictLookup ms b
          · by_cases h2 : getGenreHint c m = ""
            · exact ⟨["with elements of " ++ b], [], by simp [h1, h2],
                Or.inr ⟨b, rfl⟩, Or.inl rfl⟩
            · exact ⟨["with elements of " ++ b], [getGenreHint c m], by simp [h1, h2],
                Or.inr ⟨b, rfl⟩, Or.inr rfl⟩
          · by_cases h2 : getGenreHint c m = ""
            · exact ⟨[], [], by simp [h1, h2], Or.inl rfl, Or.inl rfl⟩
            · exact ⟨[], [getGenreHint c m], by simp [h1, h2], Or.inl rfl, Or.inr rfl⟩

lemma hints_not_base (m c : String) :
    (genreRules.any fun r => r.hint == ("A " ++ m ++ " piece of music for " ++ c))
      = false := by
  have n1 := ne_base_of_head "ambient pads and gentle flutes" 'a' _ rfl (by decide) m c
  have n2 := ne_base_of_head "epic orchestral strings and horns" 'e' _ rfl (by decide) m c
  have n3 := ne_base_of_head "electronic beats and synth bass" 'e' _ rfl (by decide) m c
  have n4 := ne_base_of_head "slow piano and distant city sounds" 's' _ rfl (by decide) m c
  have n5 := ne_base_of_head "upbeat acoustic guitar and light percussion" 'u' _ rfl (by decide) m c
  have n6 := ne_base_of_head "ethereal vocals and reverbed textures" 'e' _ rfl (by decide) m c
  simp [genreRules, n1, n2, n3, n4, n5, n6]

lemma hints_not_clause (m2 : String) :
    (genreRules.any fun r => r.hint == ("with elements of " ++ m2)) = false := by
  have n1 := ne_clause_of_head "ambient pads and gentle flutes" 'a' _ rfl (by decide) m2
  have n2 := ne_clause_of_head "epic orchestral strings and horns" 'e' _ rfl (by decide) m2
  have n3 := ne_clause_of_head "electronic beats and synth bass" 'e' _ rfl (by decide) m2
  have n4 := ne_clause_of_head "slow piano and distant city sounds" 's' _ rfl (by decide) m2
  have n5 := ne_clause_of_head "upbeat acoustic guitar and light percussion" 'u' _ rfl (by decide) m2
  have n6 := ne_clause_of_head "ethereal vocals and reverbed textures" 'e' _ rfl (by decide) m2
  simp [genreRules, n1, n2, n3, n4, n5, n6]

/-- C6: `_get_genre_hint` is exactly the first-match scan of the ordered
rule table (categories nature → urban → people, two rules each, first
matching (keyword-set, mood-set) rule wins, empty when none match);
moreover at most one rule hint ever occurs among the prompt parts, and when
no rule matches, no rule hint occurs among the prompt parts at all. -/
theorem genre_hint_first_match (c m : String) (ms : List (String × ℚ)) :
    getGenreHint c m = firstRuleHint genreRules c m ∧
    (promptParts c m ms).countP (fun s => genreRules.any fun r => r.hint == s) ≤ 1 ∧
    ((∀ r ∈ genreRules, ruleMatches r c m = false) →
      ∀ r ∈ genreRules, r.hint ∉ promptParts c m ms) := by
  obtain ⟨mp, hp, heq, hmp, hhp⟩ := promptParts_eq c m ms
  refine ⟨getGenreHint_eq_firstRuleHint c m, ?_, ?_⟩
  · rw [heq]
    simp only [List.countP_cons, List.countP_append]
    rw [hints_not_base m c]
    have hmp0 : mp.countP (fun s => genreRules.any fun r => r.hint == s) = 0 := by
      rcases hmp with rfl | ⟨m2, rfl⟩
      · simp
      · simp only [List.countP_cons, List.countP_nil]
        rw [hints_not_clause m2]
        simp
    have hhp1 : hp.countP (fun s => genreRules.any fun r => r.hint == s) ≤ 1 := by
      rcases hhp with rfl | rfl
      · simp
      · simp only [List.countP_cons, List.countP_nil]
        split <;> omega
    simp only [Bool.false_eq_true, if_false]
    omega
  · intro hno r hr
    have hg : getGenreHint c m = "" := by
      rw [getGenreHint_eq_firstRuleHint]
      exact firstRuleHint_eq_empty _ _ _ hno
    have hr6 : r ∈ genreRules := hr
    simp only [genreRules, List.mem_cons, List.mem_singleton] at hr6
    rw [heq]
    simp only [List.mem_cons, List.mem_append, not_or]
    have hbase : r.hint ≠ ("A " ++ m ++ " piece of music for " ++ c) := by
      rcases hr6 with rfl | rfl | rfl | rfl | rfl | rfl | h
      · exact ne_base_of_head _ 'a' _ rfl (by decide) m c
      · exact ne_base_of_head _ 'e' _ rfl (by decide) m c
      · exact ne_base_of_head _ 'e' _ rfl (by decide) m c
      · exact ne_base_of_head _ 's' _ rfl (by decide) m c
      · exact ne_base_of_head _ 'u' _ rfl (by decide) m c
      · exact ne_base_of_head _ 'e' _ rfl (by decide) m c
      · cases h
    have hclause : ∀ m2, r.hint ≠ ("with elements of " ++ m2) := by
      intro m2
      rcases hr6 with rfl | rfl | rfl | rfl | rfl | rfl | h
      · exact ne_clause_of_head _ 'a' _ rfl (by decide) m2
      · exact ne_clause_of_head _ 'e' _ rfl (by decide) m2
      · exact ne_clause_of_head _ 'e' _ rfl (by decide) m2
      · exact ne_clause_of_head _ 's' _ rfl (by decide) m2
      · exact ne_clause_of_head _ 'u' _ rfl (by decide) m2
      · exact ne_clause_of_head _ 'e' _ rfl (by decide) m2
      · cases h
    have hempty : r.hint ≠ "" := by
      rcases hr6 with rfl | rfl | rfl | rfl | rfl | rfl | h
      · decide
      · decide
      · decide
      · decide
      · decide
      · decide
      · cases h
    refine ⟨hbase, ?_, ?_⟩
    · rcases hmp with rfl | ⟨m2, rfl⟩
      · simp
      · simp [hclause m2]
    · rcases hhp with rfl | rfl
      · simp
      · simp [hg, hempty]

/-- Witness for `genre_hint_first_match`: a caption/mood pair matching no
rule puts no rule hint among the prompt parts. -/
theorem genre_hint_first_match_witness :
    "ambient pads and gentle flutes" ∉ promptParts "a dog" "happy" [] := by
  have h := genre_hint_first_match "a dog" "happy" []
  exact h.2.2 (by decide)
    ⟨natureWords, ["peaceful", "serene", "calm"], "ambient pads and gentle flutes"⟩
    (by simp [genreRules])

/-! ### C5 — the second-mood clause -/

lemma base_ne_clause (m c m2 : String) :
    ("A " ++ m ++ " piece of music for " ++ c) ≠ ("with elements of " ++ m2) := by
  apply head_ne_imp_ne
  rw [base_data_head, clause_data_head]
  simp

lemma lookup_second (k0 : String) (v0 : ℚ) (m2 : String) (s2 : ℚ)
    (t : List (String × ℚ)) (hne : m2 ≠ k0) :
    dictLookup ((k0, v0) :: (m2, s2) :: t) m2 = s2 := by
  have hb : (m2 == k0) = false := beq_eq_false_iff_ne.mpr hne
  simp [dictLookup, List.lookup, hb]

/-- `_get_genre_hint` returns either the empty string or the hint of one of
the six rules. -/
lemma getGenreHint_cases (c m : String) :
    getGenreHint c m = "" ∨
      (genreRules.any fun r => r.hint == getGenreHint c m) = true := by
  rw [getGenreHint_eq_firstRuleHint]
  unfold firstRuleHint
  cases hf : genreRules.find? (fun r => ruleMatches r c m) with
  | none => exact Or.inl rfl
  | some r =>
      right
      have hr : r ∈ genreRules := List.mem_of_find?_eq_some hf
      simp only [List.any_eq_true]
      exact ⟨r, hr, by simp⟩

/-- The exact shape of the prompt parts, exposing the second-mood condition. -/
lemma promptParts_structure (c m : String) (ms : List (String × ℚ)) :
    ∃ hintPart, (hintPart = [] ∨ hintPart = [getGenreHint c m]) ∧
      (∀ k0 v0 m2 s2 t, ms = (k0, v0) :: (m2, s2) :: t →
        promptParts c m ms =
          ("A " ++ m ++ " piece of music for " ++ c) ::
            ((if (1 : ℚ)/5 < dictLookup ms m2 then ["with elements of " ++ m2]
              else []) ++ hintPart)) ∧
      (ms.length ≤ 1 →
        promptParts c m ms =
          ("A " ++ m ++ " piece of music for " ++ c) :: hintPart) := by
  by_cases h : getGenreHint c m = ""
  · refine ⟨[], Or.inl rfl, ?_, ?_⟩
    · rintro k0 v0 m2 s2 t rfl
      simp [promptParts, h]
    · intro hlen
      rcases ms with _ | ⟨p, _ | ⟨q, t⟩⟩
      · simp [promptParts, h]
      · simp [promptParts, h]
      · simp at hlen
  · refine ⟨[getGenreHint c m], Or.inr rfl, ?_, ?_⟩
    · rintro k0 v0 m2 s2 t rfl
      simp [promptParts, h]
    · intro hlen
      rcases ms with _ | ⟨p, _ | ⟨q, t⟩⟩
      · simp [promptParts, h]
      · simp [promptParts, h]
      · simp at hlen

/-- C5: with distinct mood keys (mood scores come from a Python dict, whose
keys are necessarily distinct), the clause `"with elements of {secondMood}"`
occurs among the prompt parts iff the mapping has a second entry and its
confidence strictly exceeds 0.2; with fewer than two entries no such clause
occurs; the composed prompt is the `", "`-join of these parts. -/
theorem second_mood_clause_iff (c m : String) (ms : List (String × ℚ))
    (hnd : (ms.map Prod.fst).Nodup) :
    (∀ m2 s2, ms[1]? = some (m2, s2) →
      (("with elements of " ++ m2) ∈ promptParts c m ms ↔ (1 : ℚ)/5 < s2)) ∧
    (ms[1]? = none → ∀ m2, ("with elements of " ++ m2) ∉ promptParts c m ms) ∧
    createIntelligentPrompt c m ms = joinParts (promptParts c m ms) := by
  obtain ⟨hp, hhp, hcons, hshort⟩ := promptParts_structure c m ms
  have hclause_hp : ∀ m2, ("with elements of " ++ m2) ∉ hp := by
    intro m2 hmem
    rcases hhp with rfl | rfl
    · simp at hmem
    · rw [List.mem_singleton] at hmem
      rcases getGenreHint_cases c m with hg | hg
      · rw [hg] at hmem
        exact ne_empty_of_head _ 'w' (clause_data_head m2) hmem
      · rw [← hmem] at hg
        rw [hints_not_clause m2] at hg
        cases hg
  refine ⟨?_, ?_, rfl⟩
  · intro m2 s2 h2
    rcases ms with _ | ⟨⟨k0, v0⟩, ms'⟩
    · simp at h2
    rcases ms' with _ | ⟨⟨m2', s2'⟩, t⟩
    · simp at h2
    obtain ⟨e1, e2⟩ : m2' = m2 ∧ s2' = s2 := by
      simp only [List.getElem?_cons_succ, List.getElem?_cons_zero,
        Option.some.injEq, Prod.mk.injEq] at h2
      exact h2
    rw [← e1, ← e2]
    have hne : m2' ≠ k0 := by
      simp only [List.map_cons, List.nodup_cons, List.mem_cons, not_or] at hnd
      exact fun e => hnd.1.1 e.symm
    have hlk : dictLookup ((k0, v0) :: (m2', s2') :: t) m2' = s2' :=
      lookup_second k0 v0 m2' s2' t hne
    have he := hcons k0 v0 m2' s2' t rfl
    rw [hlk] at he
    rw [he]
    constructor
    · intro hmem
      rcases List.mem_cons.mp hmem with hb | hmem2
      · exact absurd hb.symm (base_ne_clause m c m2')
      rcases List.mem_append.mp hmem2 with hm | hhp2
      · by_cases hcond : (1 : ℚ)/5 < s2'
        · exact hcond
        · rw [if_neg hcond] at hm
          simp at hm
      · exact absurd hhp2 (hclause_hp m2')
    · intro hcond
      rw [if_pos hcond]
      exact List.mem_cons_of_mem _
        (List.mem_append_left _ (List.mem_singleton.mpr rfl))
  · intro h2 m2
    have hlen : ms.length ≤ 1 := by
      rcases ms with _ | ⟨p, _ | ⟨q, t⟩⟩ <;> simp_all
    rw [hshort hlen]
    intro hmem
    rcases List.mem_cons.mp hmem with hb | hhp2
    · exact absurd hb.symm (base_ne_clause m c m2)
    · exact hclause_hp m2 hhp2

/-- Witness for `second_mood_clause_iff` at a concrete two-entry mapping
whose second confidence 3/10 exceeds the 0.2 threshold. -/
theorem second_mood_clause_iff_witness :
    ("with elements of " ++ "calm") ∈ promptParts "a dog" "happy"
      [("happy", (1 : ℚ)/2), ("calm", (3 : ℚ)/10)] := by
  have h := second_mood_clause_iff "a dog" "happy"
    [("happy", (1 : ℚ)/2), ("calm", (3 : ℚ)/10)] (by decide)
  exact (h.1 "calm" ((3 : ℚ)/10) rfl).mpr (by norm_num)

/-! ### Pipeline evaluation lemmas -/

/-- A synthesis oracle that succeeds and returns a waveform whose length is
the requested duration, making the effective duration observable. -/
def synthProbe : String → ℕ → SynthRes := fun _ d => SynthRes.ok (List.replicate d 0)

lemma musicProcessD_probe (p : String) (d : ℕ) :
    musicProcessD synthProbe p d = .ok (List.replicate (clampDur d) 0, sampleRate) :=
  musicProcessD_ok _ _ _ _ rfl

lemma pyMerge_concrete (ar : AnalysisResult) (a : List ℚ) (r : ℕ) (pu : String)
    (ds : ℚ) :
    pyMerge (analysisDict ar)
        [("audio_array", .audio a), ("sample_rate", .nat r),
         ("prompt_used", .str pu), ("duration_seconds", .q ds)] =
      analysisDict ar ++
        [("audio_array", .audio a), ("sample_rate", .nat r),
         ("prompt_used", .str pu), ("duration_seconds", .q ds)] := by
  simp [pyMerge, analysisDict, List.lookup]

/-- Successful-run characterization of `process_image`: when the caption
stage yields `c`, the mood stage yields `(pm, scores)` and the synthesizer
call succeeds with waveform `a`, the pipeline output is the analysis dict
followed by the generation dict. -/
lemma processImage_ok (loadOk : Bool) (gen : CapRes) (mood : MoodRes)
    (synth : String → ℕ → SynthRes) (img : String) (durOpt : Option ℕ)
    (c pm : String) (scores : List (String × ℚ)) (a : List ℚ)
    (hcap : blip2Process loadOk gen = .ok c)
    (hmood : clipProcess mood = (pm, scores))
    (hsynth : musicProcessD synth
        ("A " ++ pm ++ " piece of music, " ++ createIntelligentPrompt c pm scores)
        (pyOrDefault durOpt defaultDuration) = .ok (a, sampleRate)) :
    processImage true loadOk gen mood synth img durOpt =
      .ok (analysisDict ⟨c, pm, scores, img⟩ ++
        [("audio_array", .audio a), ("sample_rate", .nat sampleRate),
         ("prompt_used", .str (createIntelligentPrompt c pm scores)),
         ("duration_seconds", .q ((a.length : ℚ) / (sampleRate : ℚ)))]) := by
  unfold processImage imageAnalyzerProcess
  rw [if_pos rfl, hcap]
  simp only
  rw [hmood]
  simp only [musicOrchestratorProcess, generateWithEmotion, musicProcess,
    Option.getD_some]
  rw [hsynth]
  simp only
  rw [pyMerge_concrete]

/-- Inversion: a successful `MusicOrchestrator.process` result is exactly
the four-field generation dict, with `prompt_used` holding the composed
prompt and `duration_seconds` the waveform length over the sample rate. -/
lemma musicOrchestratorProcess_ok_inv (synth : String → ℕ → SynthRes)
    (analysis : AnalysisResult) (durOpt : Option ℕ) (rec : List (String × Val))
    (h : musicOrchestratorProcess synth analysis durOpt = .ok rec) :
    ∃ a r, rec = [("audio_array", .audio a), ("sample_rate", .nat r),
      ("prompt_used", .str (createIntelligentPrompt analysis.caption
        analysis.primaryMood analysis.moodScores)),
      ("duration_seconds", .q ((a.length : ℚ) / (r : ℚ)))] := by
  simp only [musicOrchestratorProcess] at h
  cases hg : generateWithEmotion synth (createIntelligentPrompt analysis.caption
      analysis.primaryMood analysis.moodScores) analysis.primaryMood durOpt with
  | error e =>
      rw [hg] at h
      exact Except.noConfusion h
  | ok p =>
      obtain ⟨a, r⟩ := p
      rw [hg] at h
      exact ⟨a, r, (Except.ok.inj h).symm⟩

/-- Inversion: a successful `process_image` run is the analysis dict merged
with (here: followed by) the generation dict. -/
lemma processImage_ok_inv (loadOk : Bool) (gen : CapRes) (mood : MoodRes)
    (synth : String → ℕ → SynthRes) (img : String) (durOpt : Option ℕ)
    (rec : List (String × Val))
    (h : processImage true loadOk gen mood synth img durOpt = .ok rec) :
    ∃ analysis a r, imageAnalyzerProcess loadOk gen mood img = .ok analysis ∧
      rec = analysisDict analysis ++
        [("audio_array", .audio a), ("sample_rate", .nat r),
         ("prompt_used", .str (createIntelligentPrompt analysis.caption
            analysis.primaryMood analysis.moodScores)),
         ("duration_seconds", .q ((a.length : ℚ) / (r : ℚ)))] := by
  cases han : imageAnalyzerProcess loadOk gen mood img with
  | error e =>
      have hred : processImage true loadOk gen mood synth img durOpt = .error e := by
        unfold processImage
        rw [if_pos rfl, han]
      rw [hred] at h
      exact Except.noConfusion h
  | ok analysis =>
      have hred : processImage true loadOk gen mood synth img durOpt =
          (match musicOrchestratorProcess synth analysis
              (some (pyOrDefault durOpt defaultDuration)) with
            | .ok music => .ok (pyMerge (analysisDict analysis) music)
            | .error e => .error e) := by
        unfold processImage
        rw [if_pos rfl, han]
      rw [hred] at h
      cases hm : musicOrchestratorProcess synth analysis
          (some (pyOrDefault durOpt defaultDuration)) with
      | error e =>
          rw [hm] at h
          exact Except.noConfusion h
      | ok music =>
          rw [hm] at h
          obtain ⟨a, r, rfl⟩ := musicOrchestratorProcess_ok_inv synth analysis _ music hm
          have h2 := Except.ok.inj h
          refine ⟨analysis, a, r, rfl, ?_⟩
          rw [← h2, pyMerge_concrete]

/-! ### C8 — the submitted prompt vs the recorded prompt -/

/-- C8: the orchestrator's music step hands the synthesizer the string
`"A {primaryMood} piece of music, "` prepended to the composed prompt (so
the mood clause occurs twice), while the result's `prompt_used` field
records only the composed prompt; the submitted and recorded prompts always
differ. -/
theorem submitted_prompt_enhanced (synth : String → ℕ → SynthRes)
    (analysis : AnalysisResult) (durOpt : Option ℕ) :
    musicOrchestratorProcess synth analysis durOpt =
      (musicProcess synth
          ("A " ++ analysis.primaryMood ++ " piece of music, " ++
            createIntelligentPrompt analysis.caption analysis.primaryMood
              analysis.moodScores)
          durOpt).map
        (fun p =>
          [("audio_array", Val.audio p.1), ("sample_rate", Val.nat p.2),
           ("prompt_used", Val.str (createIntelligentPrompt analysis.caption
              analysis.primaryMood analysis.moodScores)),
           ("duration_seconds", Val.q ((p.1.length : ℚ) / (p.2 : ℚ)))]) ∧
    "A " ++ analysis.primaryMood ++ " piece of music, " ++
        createIntelligentPrompt analysis.caption analysis.primaryMood
          analysis.moodScores ≠
      createIntelligentPrompt analysis.caption analysis.primaryMood
        analysis.moodScores := by
  constructor
  · simp only [musicOrchestratorProcess, generateWithEmotion]
    cases h : musicProcess synth
        ("A " ++ analysis.primaryMood ++ " piece of music, " ++
          createIntelligentPrompt analysis.caption analysis.primaryMood
            analysis.moodScores) durOpt with
    | ok p => obtain ⟨a, r⟩ := p; rfl
    | error e => rfl
  · intro e
    have hlen := congrArg String.length e
    rw [String.length_append, String.length_append, String.length_append] at hlen
    have h1 : ("A " : String).length = 2 := rfl
    have h2 : (" piece of music, " : String).length = 17 := rfl
    rw [h1, h2] at hlen
    omega

/-! ### C10 — duration derived from the waveform -/

/-- C10: every successful generation result reports `duration_seconds`
equal to the length of its own waveform divided by its own sample rate —
derived from the audio actually produced, not from the requested duration
(the synthesizer may return audio of any length). -/
theorem duration_from_waveform (synth : String → ℕ → SynthRes)
    (analysis : AnalysisResult) (durOpt : Option ℕ) (rec : List (String × Val))
    (h : musicOrchestratorProcess synth analysis durOpt = .ok rec) :
    ∃ a r, rec.lookup "audio_array" = some (.audio a) ∧
      rec.lookup "sample_rate" = some (.nat r) ∧
      rec.lookup "duration_seconds" = some (.q ((a.length : ℚ) / (r : ℚ))) := by
  obtain ⟨a, r, rfl⟩ := musicOrchestratorProcess_ok_inv synth analysis durOpt rec h
  exact ⟨a, r, by simp [List.lookup], by simp [List.lookup], by simp [List.lookup]⟩

/-- A synthesis oracle that always returns 3 samples, regardless of the
requested duration. -/
def synthShort : String → ℕ → SynthRes := fun _ _ => SynthRes.ok [0, 0, 0]

/-- The concrete generation dict produced by `synthShort` at requested
duration 10. -/
def sampleMusicRec : List (String × Val) :=
  [("audio_array", .audio [0, 0, 0]), ("sample_rate", .nat sampleRate),
   ("prompt_used", .str (createIntelligentPrompt "a dog" "happy" [])),
   ("duration_seconds", .q ((([0, 0, 0] : List ℚ).length : ℚ) / (sampleRate : ℚ)))]

/-- Witness for `duration_from_waveform`: a synthesizer asked for 10 seconds
that returns 3 samples yields `duration_seconds = 3 / 32000`. -/
theorem duration_from_waveform_witness :
    ∃ a r, sampleMusicRec.lookup "audio_array" = some (.audio a) ∧
      sampleMusicRec.lookup "sample_rate" = some (.nat r) ∧
      sampleMusicRec.lookup "duration_seconds" =
        some (.q ((a.length : ℚ) / (r : ℚ))) :=
  duration_from_waveform synthShort ⟨"a dog", "happy", [], "i"⟩ (some 10)
    sampleMusicRec (by
      simp only [musicOrchestratorProcess, generateWithEmotion, musicProcess,
        Option.getD_some]
      rw [musicProcessD_ok _ _ _ _ rfl]
      rfl)

/-! ### C9 — merged record keys -/

/-- C9: every successful pipeline output record has exactly the four
analysis keys followed by the four generation keys — their disjoint union,
with nothing overwritten — and the merged record's `caption` and
`primary_mood` values are those of the analysis result. -/
theorem merged_keys_union (loadOk : Bool) (gen : CapRes) (mood : MoodRes)
    (synth : String → ℕ → SynthRes) (img : String) (durOpt : Option ℕ)
    (rec : List (String × Val))
    (h : processImage true loadOk gen mood synth img durOpt = .ok rec) :
    rec.map Prod.fst = ["caption", "primary_mood", "mood_scores", "image_path",
      "audio_array", "sample_rate", "prompt_used", "duration_seconds"] ∧
    ∃ analysis, imageAnalyzerProcess loadOk gen mood img = .ok analysis ∧
      rec.lookup "caption" = some (.str analysis.caption) ∧
      rec.lookup "primary_mood" = some (.str analysis.primaryMood) := by
  obtain ⟨analysis, a, r, han, rfl⟩ :=
    processImage_ok_inv loadOk gen mood synth img durOpt rec h
  refine ⟨?_, analysis, han, ?_, ?_⟩ <;> simp [analysisDict, List.lookup]

/-- Witness for `merged_keys_union` on a concrete successful run. -/
theorem merged_keys_union_witness :
    (analysisDict ⟨"a dog", "happy", [], "i"⟩ ++ sampleMusicRec).map Prod.fst =
      ["caption", "primary_mood", "mood_scores", "image_path",
       "audio_array", "sample_rate", "prompt_used", "duration_seconds"] ∧
    ∃ analysis, imageAnalyzerProcess true (CapRes.ok "a dog")
        (MoodRes.ok "happy" []) "i" = .ok analysis ∧
      (analysisDict ⟨"a dog", "happy", [], "i"⟩ ++ sampleMusicRec).lookup "caption"
        = some (.str analysis.caption) ∧
      (analysisDict ⟨"a dog", "happy", [], "i"⟩ ++ sampleMusicRec).lookup "primary_mood"
        = some (.str analysis.primaryMood) :=
  merged_keys_union true (CapRes.ok "a dog") (MoodRes.ok "happy" []) synthShort
    "i" (some 10) _ (processImage_ok true (CapRes.ok "a dog")
      (MoodRes.ok "happy" []) synthShort "i" (some 10) "a dog" "happy" [] [0, 0, 0]
      rfl rfl (musicProcessD_ok _ _ _ _ rfl))

/-! ### C2 — duration fallback and clamping -/

/-- C2 amended: threaded through the full pipeline, the duration at which
the audio oracle is invoked is `effDuration`: a requested duration of 0 (or
an omitted one) falls back to the configured default of 10 — there is no
minimum clamp to 1 — durations above the maximum are clamped to 30
(1000 → 30), in-range durations pass through unchanged, and out-of-range
values are never rejected by the pipeline. -/
theorem duration_fallback_and_clamp (durOpt : Option ℕ) :
    (processImage true true (CapRes.ok "a dog") (MoodRes.ok "happy" []) synthProbe
        "img.jpg" durOpt).map (fun r => r.lookup "audio_array")
      = Except.ok (some (Val.audio (List.replicate (effDuration durOpt) 0))) ∧
    effDuration (some 0) = defaultDuration ∧
    effDuration none = defaultDuration ∧
    effDuration (some 1000) = maxDuration ∧
    ∀ n, 1 ≤ n → n ≤ maxDuration → effDuration (some n) = n := by
  refine ⟨?_, rfl, rfl, rfl, ?_⟩
  · rw [processImage_ok true (CapRes.ok "a dog") (MoodRes.ok "happy" []) synthProbe
      "img.jpg" durOpt "a dog" "happy" [] (List.replicate (effDuration durOpt) 0)
      rfl rfl (by rw [musicProcessD_probe]; rfl)]
    simp [Except.map, analysisDict, List.lookup]
  · intro n h1 h2
    simp only [maxDuration] at h2
    simp only [effDuration, pyOrDefault, clampDur, defaultDuration, maxDuration]
    split_ifs <;> omega

/-- Witness-style instance of `duration_fallback_and_clamp` at the in-range
requested duration 7. -/
theorem duration_fallback_and_clamp_witness :
    (processImage true true (CapRes.ok "a dog") (MoodRes.ok "happy" []) synthProbe
        "img.jpg" (some 7)).map (fun r => r.lookup "audio_array")
      = Except.ok (some (Val.audio (List.replicate 7 0))) := by
  have h := duration_fallback_and_clamp (some 7)
  have h7 : effDuration (some 7) = 7 := h.2.2.2.2 7 (by norm_num) (by norm_num [maxDuration])
  rw [← h7]
  exact h.1

/-- C2 counterexample: requesting duration 0 does not clamp to the claimed
minimum of 1 — the waveform produced by the duration-probing synthesizer
has length 10 (the configured default), not 1. -/
theorem duration_zero_not_min_counterexample :
    (processImage true true (CapRes.ok "a dog") (MoodRes.ok "happy" []) synthProbe
        "img.jpg" (some 0)).map (fun r => r.lookup "audio_array")
      = Except.ok (some (Val.audio (List.replicate 10 0))) ∧
    (processImage true true (CapRes.ok "a dog") (MoodRes.ok "happy" []) synthProbe
        "img.jpg" (some 0)).map (fun r => r.lookup "audio_array")
      ≠ Except.ok (some (Val.audio (List.replicate 1 0))) := by
  have h : (processImage true true (CapRes.ok "a dog") (MoodRes.ok "happy" [])
      synthProbe "img.jpg" (some 0)).map (fun r => r.lookup "audio_array")
      = Except.ok (some (Val.audio (List.replicate 10 0))) := by
    rw [processImage_ok true (CapRes.ok "a dog") (MoodRes.ok "happy" []) synthProbe
      "img.jpg" (some 0) "a dog" "happy" [] (List.replicate 10 0)
      rfl rfl (by rw [musicProcessD_probe]; rfl)]
    simp [Except.map, analysisDict, List.lookup]
  refine ⟨h, ?_⟩
  rw [h]
  intro e
  simp at e

/-! ### C3 — caption failure policy -/

/-- C3 counterexample: a `RuntimeError` raised inside the caption service is
re-raised by `BLIP2Model.process` (src/models/blip2_wrapper.py:104-108), so
the pipeline aborts instead of substituting the fallback caption. -/
theorem caption_runtime_error_aborts :
    processImage true true CapRes.runtimeErr (MoodRes.ok "happy" []) synthProbe
      "img.jpg" (some 10) = .error PipeErr.capRuntime := rfl

/-- C3 amended: when the caption stage fails while loading the image, or
with any non-`RuntimeError` exception during captioning, the fixed fallback
caption `"an image"` is substituted and the pipeline still returns a
complete result (provided synthesis succeeds); a `RuntimeError` from the
caption service, however, propagates. -/
theorem caption_fallback_non_runtime (loadOk : Bool) (gen : CapRes) (pm : String)
    (scores : List (String × ℚ)) (synth : String → ℕ → SynthRes) (img : String)
    (durOpt : Option ℕ)
    (hfail : loadOk = false ∨ gen = CapRes.otherErr)
    (hsynth : ∀ p d, ∃ a, synth p d = SynthRes.ok a) :
    ∃ rec, processImage true loadOk gen (MoodRes.ok pm scores) synth img durOpt
        = .ok rec ∧
      rec.lookup "caption" = some (Val.str "an image") := by
  have hcap : blip2Process loadOk gen = .ok "an image" := by
    rcases hfail with rfl | rfl
    · rfl
    · cases loadOk <;> rfl
  obtain ⟨a, ha⟩ := hsynth
    ("A " ++ pm ++ " piece of music, " ++
      createIntelligentPrompt "an image" pm scores)
    (clampDur (pyOrDefault durOpt defaultDuration))
  have hs : musicProcessD synth
      ("A " ++ pm ++ " piece of music, " ++
        createIntelligentPrompt "an image" pm scores)
      (pyOrDefault durOpt defaultDuration) = .ok (a, sampleRate) :=
    musicProcessD_ok _ _ _ _ ha
  refine ⟨_, processImage_ok loadOk gen (MoodRes.ok pm scores) synth img durOpt
    "an image" pm scores a hcap rfl hs, ?_⟩
  simp [analysisDict, List.lookup]

/-- Witness for `caption_fallback_non_runtime`: a generic captioning failure
still yields a complete result with the fallback caption. -/
theorem caption_fallback_non_runtime_witness :
    ∃ rec, processImage true true CapRes.otherErr (MoodRes.ok "happy" [])
        synthProbe "img.jpg" (some 3) = .ok rec ∧
      rec.lookup "caption" = some (Val.str "an image") :=
  caption_fallback_non_runtime true CapRes.otherErr "happy" [] synthProbe
    "img.jpg" (some 3) (Or.inr rfl) (fun _ d => ⟨List.replicate d 0, rfl⟩)

end Sonifier
